import Mathlib

/-!
# Verification of the azopenai transport layer

A shallow embedding, in Lean 4, of the request/response transport layer of the
`element-of-surprise/azopenai` Go repository: the SSE-style streaming reader,
the non-200 error envelope, the response normalizer (index re-sorting), the
endpoint-URL resolver and cache, the pooled request buffer, the authorizer
validation, and the embeddings client's newline-removal option.

Go byte slices are modelled as `List Char` (the bodies at issue are ASCII
text), Go strings as `String`, Go maps as association lists, and the
`chan`-based stream as the list of messages sent on the channel before it is
closed.  Stateful Go code is modelled by explicit state passing.  Standard
library functions that are not part of the repository (`json.Unmarshal`,
`url.Parse`) are abstracted as parameters of the definitions that call them.
-/

/- ================================================================
   Streaming reader: `Client.stream` in src/rest/rest.go
   ================================================================ -/

/-- A Go `error` value, as far as the transport layer distinguishes them:
`io.EOF` (returned by `bufio.Reader.ReadBytes` at end of stream) or any
other error, identified by its message. -/
inductive GoError where
  | eof
  | other (msg : String)
deriving DecidableEq, Repr

/-- One message sent on the `chan StreamRecv` of `Client.stream`
(src/rest/rest.go): either a payload chunk (`StreamRecv.Data`) or a terminal
error (`StreamRecv.Err`). The stream closing is modelled by the end of the
list of messages. -/
inductive StreamMsg where
  | data (payload : List Char)
  | err (e : GoError)
deriving DecidableEq, Repr

/-- One outcome of a `bio.ReadBytes` call inside the read loop of
`Client.stream`: either a full line (bytes up to and including the
delimiter) or a read failure.  `ReadBytes` reports an error exactly when
the stream ends before a delimiter; the loop then discards any partial
data and emits the error, so the partial bytes are not modelled. -/
inductive ReadRes where
  | line (bs : List Char)
  | fail (e : GoError)
deriving DecidableEq, Repr

/-- The whitespace predicate of `bytes.TrimSpace` restricted to ASCII input:
space, tab, newline, vertical tab, form feed, carriage return. -/
def isSpaceByte (c : Char) : Bool :=
  c = ' ' || c = '\t' || c = '\n' || c = '\x0b' || c = '\x0c' || c = '\r'

/-- `bytes.TrimSpace`: drop whitespace from both ends of the slice. -/
def trimSpace (bs : List Char) : List Char :=
  ((bs.dropWhile isSpaceByte).reverse.dropWhile isSpaceByte).reverse

/-- The `streamHeader` constant of src/rest/rest.go: the bytes `data: `. -/
def streamHeader : List Char := "data: ".data

/-- The `streamDone` constant of src/rest/rest.go: the bytes `[DONE]`. -/
def streamDone : List Char := "[DONE]".data

/-- The read loop of `Client.stream` (src/rest/rest.go lines 545-567), as a
function from the sequence of `ReadBytes` outcomes to the sequence of
messages sent on the channel before `close(ch)`:

* a read error is sent as a terminal `err` message and the loop returns;
* a line that, after `bytes.TrimSpace`, does not start with `data: ` is
  skipped;
* otherwise the `data: ` header is stripped; if the remainder is `[DONE]`
  the loop returns (clean close), else the remainder is sent as a payload.

The `[]` case is unreachable for traces produced from a response body
(`ReadBytes` always returns a line or an error) but keeps the function
total. -/
def streamLoop : List ReadRes → List StreamMsg
  | [] => []
  | .fail e :: _ => [.err e]
  | .line bs :: rest =>
    let line := trimSpace bs
    if streamHeader.isPrefixOf line then
      let payload := line.drop streamHeader.length
      if payload = streamDone then []
      else .data payload :: streamLoop rest
    else
      streamLoop rest

/-- Split a response body into the complete lines `ReadBytes` returns, each
including its trailing newline.  Trailing bytes after the last newline are
returned by `ReadBytes` only together with `io.EOF`, which makes the loop
emit the error and discard them, so they yield no line here. -/
def splitLinesAux : List Char → List Char → List (List Char)
  | [], _ => []
  | c :: cs, acc =>
    if c = '\n' then (acc ++ [c]) :: splitLinesAux cs []
    else splitLinesAux cs (acc ++ [c])

/-- The complete lines of a response body, in order. -/
def completeLines (body : List Char) : List (List Char) := splitLinesAux body []

/-- The trace of `ReadBytes` outcomes produced by reading a (fully
delivered, then closed) response body: its complete lines in order,
followed by `io.EOF`. -/
def bodyTrace (body : List Char) : List ReadRes :=
  (completeLines body).map .line ++ [.fail .eof]

/-- The messages `Client.stream` delivers for a given 200 response body. -/
def streamMsgs (body : List Char) : List StreamMsg :=
  streamLoop (bodyTrace body)

/-- The payload, if any, that the read loop emits for one line: the line is
trimmed; lines without the `data: ` header and the `[DONE]` sentinel line
produce no payload. -/
def linePayload (bs : List Char) : Option (List Char) :=
  let line := trimSpace bs
  if streamHeader.isPrefixOf line then
    let payload := line.drop streamHeader.length
    if payload = streamDone then none else some payload
  else none

/-- Whether a line terminates the read loop: a line whose trimmed content is
the `data: ` header followed by exactly `[DONE]`. -/
def isDoneLine (bs : List Char) : Bool :=
  streamHeader.isPrefixOf (trimSpace bs)
    && (trimSpace bs).drop streamHeader.length == streamDone

/-- The payload, if any, of one `ReadBytes` outcome. -/
def readPayload : ReadRes → Option (List Char)
  | .line bs => linePayload bs
  | .fail _ => none

/-- Whether one `ReadBytes` outcome terminates the read loop: a failure, or
a `[DONE]` line. -/
def isTerminalRead : ReadRes → Bool
  | .line bs => isDoneLine bs
  | .fail _ => true

/-- The payload chunks among the messages of a stream, in delivery order. -/
def payloadsOf (msgs : List StreamMsg) : List (List Char) :=
  msgs.filterMap fun m => match m with | .data p => some p | .err _ => none

/-- The declarative, order-preserving reading of the SSE framing: the
payloads of the lines strictly before the first terminating line, in the
order the lines occur. -/
def orderedPayloads (lines : List (List Char)) : List (List Char) :=
  (lines.takeWhile fun l => !isDoneLine l).filterMap linePayload

theorem payloadsOf_streamLoop (tr : List ReadRes) :
    payloadsOf (streamLoop tr)
      = (tr.takeWhile fun r => !isTerminalRead r).filterMap readPayload := by
  induction tr with
  | nil => simp [streamLoop, payloadsOf]
  | cons r rest ih =>
    cases r with
    | fail e => simp [streamLoop, payloadsOf, isTerminalRead]
    | line bs =>
      by_cases hp : streamHeader.isPrefixOf (trimSpace bs)
      · by_cases hd : (trimSpace bs).drop streamHeader.length = streamDone
        · have ht : isTerminalRead (ReadRes.line bs) = true := by
            simp [isTerminalRead, isDoneLine, hp, hd]
          simp [streamLoop, hp, hd, payloadsOf, List.takeWhile_cons, ht]
        · have ht : isTerminalRead (ReadRes.line bs) = false := by
            simp [isTerminalRead, isDoneLine, hp, hd]
          have hpay : readPayload (ReadRes.line bs)
              = some ((trimSpace bs).drop streamHeader.length) := by
            simp [readPayload, linePayload, hp, hd]
          simp only [streamLoop, hp, if_true, hd, if_false,
            List.takeWhile_cons, ht, Bool.not_false, if_true,
            List.filterMap_cons, hpay]
          simpa [payloadsOf] using congrArg
            ((trimSpace bs).drop streamHeader.length :: ·) ih
      · have ht : isTerminalRead (ReadRes.line bs) = false := by
          simp [isTerminalRead, isDoneLine, hp]
        have hpay : readPayload (ReadRes.line bs) = none := by
          simp [readPayload, linePayload, hp]
        simp only [streamLoop, hp, if_false, List.takeWhile_cons, ht,
          Bool.not_false, if_true, List.filterMap_cons, hpay]
        exact ih

theorem takeWhile_filterMap_bodyTrace (ls : List (List Char)) (e : GoError) :
    ((ls.map ReadRes.line ++ [ReadRes.fail e]).takeWhile
        fun r => !isTerminalRead r).filterMap readPayload
      = (ls.takeWhile fun l => !isDoneLine l).filterMap linePayload := by
  induction ls with
  | nil => simp [isTerminalRead]
  | cons l rest ih =>
    by_cases hd : isDoneLine l
    · simp [isTerminalRead, hd]
    · simp only [List.cons_append, List.map_cons, List.takeWhile_cons,
        isTerminalRead, hd, Bool.not_false, List.filterMap_cons]
      cases h : linePayload l with
      | none => simpa [readPayload, h] using ih
      | some p => simpa [readPayload, h] using congrArg (p :: ·) ih

/-- The concrete four-line body of the specification's streaming example. -/
def exampleStreamBody : List Char :=
  ("data: \x7b\"a\":1\x7d\n" ++ "\n" ++ "data: \x7b\"a\":2\x7d\n"
    ++ "data: [DONE]\n").data

/-- C1: for the body made of the lines `data: (a:1)`, an empty line,
`data: (a:2)` and `data: [DONE]`, the channel delivers exactly the two
payload chunks, first the bytes of the first JSON object and then those of
the second, and then closes with no error; and in general the payload
chunks of any response body are exactly the payloads of its lines up to the
first terminating line, in the order the lines occur in the body. -/
theorem stream_delivers_payloads_in_line_order :
    streamMsgs exampleStreamBody
        = [.data "\x7b\"a\":1\x7d".data, .data "\x7b\"a\":2\x7d".data]
      ∧ ∀ body : List Char,
          payloadsOf (streamMsgs body) = orderedPayloads (completeLines body) := by
  constructor
  · decide
  · intro body
    rw [streamMsgs, bodyTrace, payloadsOf_streamLoop, orderedPayloads,
      takeWhile_filterMap_bodyTrace]

theorem streamLoop_err_is_last :
    ∀ (tr : List ReadRes) (i : Nat) (e : GoError),
      (streamLoop tr)[i]? = some (StreamMsg.err e) → i + 1 = (streamLoop tr).length := by
  intro tr
  induction tr with
  | nil => intro i e h; simp [streamLoop] at h
  | cons r rest ih =>
    intro i e h
    cases r with
    | fail e2 =>
      cases i with
      | zero => simp [streamLoop]
      | succ j => simp [streamLoop] at h
    | line bs =>
      by_cases hp : streamHeader.isPrefixOf (trimSpace bs)
      · by_cases hd : (trimSpace bs).drop streamHeader.length = streamDone
        · simp [streamLoop, hp, hd] at h
        · simp only [streamLoop, hp, if_true, hd, if_false] at h ⊢
          cases i with
          | zero => simp at h
          | succ j =>
            simp only [List.getElem?_cons_succ] at h
            have := ih j e h
            simp only [List.length_cons]
            omega
      · simp only [streamLoop, hp, if_false] at h ⊢
        exact ih i e h

theorem streamLoop_cons_line (bs : List Char) (rest : List ReadRes) :
    streamLoop (ReadRes.line bs :: rest)
      = if streamHeader.isPrefixOf (trimSpace bs) then
          if (trimSpace bs).drop streamHeader.length = streamDone then []
          else StreamMsg.data ((trimSpace bs).drop streamHeader.length)
                 :: streamLoop rest
        else streamLoop rest := rfl

theorem streamLoop_no_done (ls : List (List Char)) (e : GoError) (rest : List ReadRes)
    (h : ∀ l ∈ ls, isDoneLine l = false) :
    streamLoop (ls.map ReadRes.line ++ ReadRes.fail e :: rest)
      = (ls.filterMap linePayload).map StreamMsg.data ++ [StreamMsg.err e] := by
  induction ls with
  | nil => simp [streamLoop]
  | cons l ls ih =>
    have hl : isDoneLine l = false := h l (List.mem_cons_self l ls)
    have hrest : ∀ l2 ∈ ls, isDoneLine l2 = false :=
      fun l2 hm => h l2 (List.mem_cons_of_mem l hm)
    rw [List.map_cons, List.cons_append, streamLoop_cons_line]
    by_cases hp : streamHeader.isPrefixOf (trimSpace l)
    · have hd : ¬ (trimSpace l).drop streamHeader.length = streamDone := by
        intro hcontra
        simp [isDoneLine, hp, hcontra] at hl
      have hpay : linePayload l = some ((trimSpace l).drop streamHeader.length) := by
        simp [linePayload, hp, hd]
      rw [if_pos hp, if_neg hd, ih hrest]
      simp [hpay]
    · have hpay : linePayload l = none := by simp [linePayload, hp]
      rw [if_neg hp, ih hrest]
      simp [hpay]

/-- C6: a `ReadBytes` failure — in particular the `io.EOF` produced when the
body ends without a `[DONE]` line — is delivered on the channel as an error
message which is always the last message sent (nothing follows it, and the
channel is closed at the end of the message list); concretely, a body with
no `[DONE]` line yields all of its payload chunks followed by exactly one
terminal `io.EOF` error. -/
theorem stream_read_error_is_terminal :
    (∀ (tr : List ReadRes) (i : Nat) (e : GoError),
        (streamLoop tr)[i]? = some (StreamMsg.err e) → i + 1 = (streamLoop tr).length)
    ∧ ∀ body : List Char, (∀ l ∈ completeLines body, isDoneLine l = false) →
        streamMsgs body
          = ((completeLines body).filterMap linePayload).map StreamMsg.data
              ++ [StreamMsg.err GoError.eof] := by
  refine ⟨streamLoop_err_is_last, fun body h => ?_⟩
  rw [streamMsgs, bodyTrace]
  have : (completeLines body).map ReadRes.line ++ [ReadRes.fail GoError.eof]
      = (completeLines body).map ReadRes.line ++ ReadRes.fail GoError.eof :: [] := rfl
  rw [this, streamLoop_no_done (completeLines body) GoError.eof [] h]

/-- Witness for C6: the single-payload body `data: x` with no `[DONE]` line
delivers the payload and then the terminal `io.EOF` error. -/
theorem stream_read_error_is_terminal_witness :
    streamMsgs ("data: x\n".data)
      = ((completeLines ("data: x\n".data)).filterMap linePayload).map StreamMsg.data
          ++ [StreamMsg.err GoError.eof] :=
  stream_read_error_is_terminal.2 ("data: x\n".data) (by decide)

/-- C7: a line that, after trimming, does not carry the `data: ` header is
skipped: deleting it from the read trace leaves the delivered messages
unchanged (no chunk, no error, reading continues), wherever it occurs; and
this is the only silent case — a line that does carry the header either
terminates the stream (`[DONE]`) or is delivered as a payload chunk. -/
theorem stream_skips_only_non_data_lines :
    (∀ (pre post : List ReadRes) (bs : List Char),
        streamHeader.isPrefixOf (trimSpace bs) = false →
        streamLoop (pre ++ ReadRes.line bs :: post) = streamLoop (pre ++ post))
    ∧ ∀ (bs : List Char) (post : List ReadRes),
        streamHeader.isPrefixOf (trimSpace bs) = true →
        ((trimSpace bs).drop streamHeader.length = streamDone →
            streamLoop (ReadRes.line bs :: post) = [])
        ∧ ((trimSpace bs).drop streamHeader.length ≠ streamDone →
            streamLoop (ReadRes.line bs :: post)
              = StreamMsg.data ((trimSpace bs).drop streamHeader.length)
                  :: streamLoop post) := by
  constructor
  · intro pre post bs hp
    induction pre with
    | nil => simp [streamLoop, hp]
    | cons r pre ih =>
      cases r with
      | fail e => simp [streamLoop]
      | line bs2 =>
        by_cases hp2 : streamHeader.isPrefixOf (trimSpace bs2)
        · by_cases hd2 : (trimSpace bs2).drop streamHeader.length = streamDone
          · simp [streamLoop, hp2, hd2]
          · simp [streamLoop, hp2, hd2, ih]
        · simp [streamLoop, hp2, ih]
  · intro bs post hp
    exact ⟨fun hd => by simp [streamLoop, hp, hd],
      fun hd => by simp [streamLoop, hp, hd]⟩

/-- Witness for C7: an empty keep-alive line inserted before a read failure
changes nothing in the delivered messages. -/
theorem stream_skips_only_non_data_lines_witness :
    streamLoop ([] ++ ReadRes.line "\n".data :: [ReadRes.fail GoError.eof])
      = streamLoop ([] ++ [ReadRes.fail GoError.eof]) :=
  stream_skips_only_non_data_lines.1 [] [ReadRes.fail GoError.eof] "\n".data (by decide)

/- ================================================================
   Error envelope: `specErr`, `send`, `stream` in src/rest/rest.go
   ================================================================ -/

/-- An HTTP response as the transport sees it: the status code, the bytes
that `io.ReadAll` obtains from the body, and whether the body read fails
after those bytes.  The network transport itself is external to the
repository, so the response is an input of the model. -/
structure HttpResponse where
  statusCode : Nat
  body : List Char
  readErr : Option GoError
deriving DecidableEq, Repr

/-- The error values of the repository's errors package
(src/clients/embeddings/embeddings.go, third document): `errors.StatusCode`
carries the raw message and the HTTP status code; `errors.JSON` additionally
carries the decoded JSON object.  The decoded object type is a parameter
`α` because `json.Unmarshal` is external to the repository. -/
inductive SpecError (α : Type) where
  | statusCode (message : List Char) (code : Nat)
  | json (message : List Char) (json : α) (code : Nat)
deriving DecidableEq, Repr

/-- `specErr` (src/rest/rest.go lines 572-593): read the body; on a read
error return `errors.StatusCode` with the bytes read so far; otherwise try
to decode the body as a JSON object (`json.Unmarshal` into a map, abstracted
as `decodeObj`); on decode failure return `errors.StatusCode` with the raw
body, else `errors.JSON` with the raw body and the decoded map. -/
def specErr {α : Type} (decodeObj : List Char → Option α) (resp : HttpResponse) :
    SpecError α :=
  match resp.readErr with
  | some _ => .statusCode resp.body resp.statusCode
  | none =>
    match decodeObj resp.body with
    | none => .statusCode resp.body resp.statusCode
    | some m => .json resp.body m resp.statusCode

/-- The error result of `Client.send`: the structured `specErr` error on a
non-200 status, or a wrapped body-read error on a 200 status. -/
inductive SendError (α : Type) where
  | spec (e : SpecError α)
  | readBody (e : GoError)
deriving DecidableEq, Repr

/-- `Client.send` (src/rest/rest.go lines 465-499), from the point where the
response is available: a non-200 status yields `specErr resp` and no
response bytes; a 200 status yields the fully read body, or a wrapped read
error. -/
def send {α : Type} (decodeObj : List Char → Option α) (resp : HttpResponse) :
    Except (SendError α) (List Char) :=
  if resp.statusCode ≠ 200 then .error (.spec (specErr decodeObj resp))
  else
    match resp.readErr with
    | some e => .error (.readBody e)
    | none => .ok resp.body

/-- `Client.stream` (src/rest/rest.go lines 510-570), from the point where
the response is available: a non-200 status yields `specErr resp` and no
channel; a 200 status yields the channel, modelled by the list of messages
delivered on it. -/
def streamCall {α : Type} (decodeObj : List Char → Option α) (resp : HttpResponse) :
    Except (SpecError α) (List StreamMsg) :=
  if resp.statusCode ≠ 200 then .error (specErr decodeObj resp)
  else .ok (streamMsgs resp.body)

/-- C2: a non-200 response makes `send` return an error and no response
bytes, and `stream` return an error and no channel, the error being
`specErr` in both; and when the body decodes as a JSON object the error is
`errors.JSON` carrying the status code, the raw body as message and the
decoded map, while when the body does not decode the error is
`errors.StatusCode` carrying the status code and the raw body unchanged. -/
theorem non200_returns_structured_error {α : Type}
    (decodeObj : List Char → Option α) (resp : HttpResponse)
    (hs : resp.statusCode ≠ 200) (hr : resp.readErr = none) :
    (send decodeObj resp = .error (.spec (specErr decodeObj resp))
      ∧ streamCall decodeObj resp = .error (specErr decodeObj resp))
    ∧ (∀ m, decodeObj resp.body = some m →
        specErr decodeObj resp = .json resp.body m resp.statusCode)
    ∧ (decodeObj resp.body = none →
        specErr decodeObj resp = .statusCode resp.body resp.statusCode) := by
  refine ⟨⟨by simp [send, hs], by simp [streamCall, hs]⟩, ?_, ?_⟩
  · intro m hm
    simp [specErr, hr, hm]
  · intro hm
    simp [specErr, hr, hm]

/-- Witness for C2: a 404 response whose body decodes as a JSON object
yields the `errors.JSON` error through `send`. -/
theorem non200_returns_structured_error_witness :
    send (fun bs => if bs = "\x7b\x7d".data then some 1 else none)
        ⟨404, "\x7b\x7d".data, none⟩
      = .error (.spec (.json "\x7b\x7d".data 1 404)) := by
  have h := non200_returns_structured_error
    (fun bs => if bs = "\x7b\x7d".data then some 1 else none)
    ⟨404, "\x7b\x7d".data, none⟩ (by decide) rfl
  rw [h.1.1, h.2.1 1 (by decide)]

/- ================================================================
   Response normalizer: `Client.Embeddings` / `Client.Chat` sorting
   (src/rest/rest.go lines 409-463)
   ================================================================ -/

/-- `embeddings.Data` (src/rest/messages/embeddings/embeddings.go): one
embedding with its `index` into the input.  The `float64` vector entries are
modelled as rationals; the sort never inspects them. -/
structure EmbeddingData where
  object : String
  embedding : List Rat
  index : Int
deriving DecidableEq, Repr

/-- `embeddings.Resp` (src/rest/messages/embeddings/embeddings.go). -/
structure EmbeddingsResp where
  model : String
  data : List EmbeddingData
deriving DecidableEq, Repr

/-- `chat.RecvMsg` (src/unnamed/part_001). -/
structure RecvMsg where
  role : String
  content : String
deriving DecidableEq, Repr

/-- `chat.Choice` (src/unnamed/part_001). -/
structure ChatChoice where
  index : Int
  message : RecvMsg
  finishReason : String
deriving DecidableEq, Repr

/-- `chat.Usage` (src/unnamed/part_001). -/
structure ChatUsage where
  promptTokens : Int
  completionTokens : Int
  totalTokens : Int
deriving DecidableEq, Repr

/-- `chat.Resp` (src/unnamed/part_001); `custom.UnixTime` is modelled by the
integer timestamp. -/
structure ChatResp where
  id : String
  object : String
  created : Int
  model : String
  choices : List ChatChoice
  usage : ChatUsage
deriving DecidableEq, Repr

/-- The comparison `msg.Data[i].Index < msg.Data[j].Index` passed to
`sort.Slice` by `Client.Embeddings`, as the matching non-strict order used
to state sortedness of its output. -/
def embLE (a b : EmbeddingData) : Prop := a.index ≤ b.index

/-- The comparison used by `Client.Chat` on `msg.Choices`. -/
def choiceLE (a b : ChatChoice) : Prop := a.index ≤ b.index

instance : DecidableRel embLE := fun a b => inferInstanceAs (Decidable (a.index ≤ b.index))

instance : DecidableRel choiceLE := fun a b => inferInstanceAs (Decidable (a.index ≤ b.index))

instance : IsTotal EmbeddingData embLE := ⟨fun a b => Int.le_total a.index b.index⟩

instance : IsTrans EmbeddingData embLE := ⟨fun _ _ _ h1 h2 => le_trans h1 h2⟩

instance : IsTotal ChatChoice choiceLE := ⟨fun a b => Int.le_total a.index b.index⟩

instance : IsTrans ChatChoice choiceLE := ⟨fun _ _ _ h1 h2 => le_trans h1 h2⟩

/-- The `sort.Slice` call of `Client.Embeddings` (src/rest/rest.go lines
430-432): sort the data by ascending `Index`.  `sort.Slice` is Go library
code, modelled by a sort that satisfies its contract (a sorted permutation
of the input under the given comparison). -/
def sortEmbeddingsData (l : List EmbeddingData) : List EmbeddingData :=
  List.insertionSort embLE l

/-- The `sort.Slice` call of `Client.Chat` (src/rest/rest.go lines 458-460). -/
def sortChatChoices (l : List ChatChoice) : List ChatChoice :=
  List.insertionSort choiceLE l

/-- `Client.Embeddings` (src/rest/rest.go lines 409-435) after a successful
decode: the decoded response with its `Data` re-sorted by ascending index. -/
def normalizeEmbeddings (msg : EmbeddingsResp) : EmbeddingsResp :=
  { msg with data := sortEmbeddingsData msg.data }

/-- `Client.Chat` (src/rest/rest.go lines 438-463) after a successful
decode: the decoded response with its `Choices` re-sorted by ascending
index. -/
def normalizeChat (msg : ChatResp) : ChatResp :=
  { msg with choices := sortChatChoices msg.choices }

/-- An embeddings response whose data arrives as index 1 then index 0. -/
def exampleEmbeddingsResp : EmbeddingsResp :=
  ⟨"m", [⟨"embedding", [1], 1⟩, ⟨"embedding", [2], 0⟩]⟩

/-- C3: `Client.Embeddings` returns `Data` sorted in ascending order of
`Index` and a permutation of the decoded array, `Client.Chat` likewise for
`Choices`; and a data array that arrives as index 1 then index 0 is
returned as index 0 then index 1. -/
theorem responses_sorted_by_index :
    (∀ msg : EmbeddingsResp,
        List.Sorted embLE (normalizeEmbeddings msg).data
          ∧ (normalizeEmbeddings msg).data.Perm msg.data)
    ∧ (∀ msg : ChatResp,
        List.Sorted choiceLE (normalizeChat msg).choices
          ∧ (normalizeChat msg).choices.Perm msg.choices)
    ∧ (normalizeEmbeddings exampleEmbeddingsResp).data
        = [⟨"embedding", [2], 0⟩, ⟨"embedding", [1], 1⟩] := by
  refine ⟨fun msg => ⟨?_, ?_⟩, fun msg => ⟨?_, ?_⟩, ?_⟩
  · exact List.sorted_insertionSort embLE msg.data
  · exact List.perm_insertionSort embLE msg.data
  · exact List.sorted_insertionSort choiceLE msg.choices
  · exact List.perm_insertionSort choiceLE msg.choices
  · decide

/- ================================================================
   Endpoint resolver: `newEndpoints` / `endpoints.url` / `endpoints.set`
   (src/rest/rest.go lines 215-286)
   ================================================================ -/

/-- A parsed `url.URL`, modelled by the text it was parsed from (`url.Parse`
itself is Go library code, abstracted as a parameter below). -/
abbrev URL := String

/-- The version constant `APIVersion` of src/rest/rest.go. -/
def APIVersion : String := "2023-03-15-preview"

/-- The `endpointType` constants of src/rest/rest.go. -/
inductive EndpointType where
  | unknownTmpl
  | completionsTmpl
  | embeddingsTmpl
  | chatTmpl
deriving DecidableEq, Repr

/-- `templVars` (src/rest/rest.go): the variables substituted into the
endpoint templates. -/
structure TemplVars where
  resourceName : String
  deploymentID : String
  apiVersion : String
deriving DecidableEq, Repr

/-- Execution of the three fixed templates of `newEndpoints`
(src/rest/rest.go lines 238-248) on a set of variables.  Each template is
the literal text with `.ResourceName`, `.DeploymentID` and `.APIVersion`
substituted; the chat endpoint's path segment is `chat/completions`.
Executing a template that was never registered (the unknown endpoint type)
fails, as `ExecuteTemplate` does. -/
def renderEndpointTemplate : EndpointType → TemplVars → Option String
  | .completionsTmpl, v =>
    some ("https://" ++ v.resourceName ++ ".openai.azure.com/openai/deployments/"
      ++ v.deploymentID ++ "/completions?api-version=" ++ v.apiVersion)
  | .embeddingsTmpl, v =>
    some ("https://" ++ v.resourceName ++ ".openai.azure.com/openai/deployments/"
      ++ v.deploymentID ++ "/embeddings?api-version=" ++ v.apiVersion)
  | .chatTmpl, v =>
    some ("https://" ++ v.resourceName ++ ".openai.azure.com/openai/deployments/"
      ++ v.deploymentID ++ "/chat/completions?api-version=" ++ v.apiVersion)
  | .unknownTmpl, _ => none

/-- `endpoints.set` (src/rest/rest.go lines 279-286): execute the template
for the endpoint type and parse the result as a URL.  `url.Parse` is
abstracted as the `parseURL` parameter; `none` is an error. -/
def endpointsSet (parseURL : String → Option URL) (et : EndpointType)
    (vars : TemplVars) : Option URL :=
  (renderEndpointTemplate et vars).bind parseURL

/-- The state of the `endpoints` structure (src/rest/rest.go lines 223-227):
the nested map `m` from endpoint type and deployment ID to the cached URL,
flattened to one association list keyed by the pair (same lookup
semantics), plus a ghost counter of how many template executions
(`endpoints.set` calls) have been performed, used to state the cache-hit
property.  The mutex serializes calls; each call is one atomic step here. -/
structure Endpoints where
  cache : List ((EndpointType × String) × URL)
  renders : Nat
deriving DecidableEq, Repr

/-- `endpoints.url` (src/rest/rest.go lines 256-277): look the pair up in
the cache; on a hit return the cached URL unchanged; on a miss set the
deployment ID in the variables, render and parse the URL, cache it and
return it. -/
def Endpoints.url (parseURL : String → Option URL) (e : Endpoints)
    (eType : EndpointType) (deploymentID : String) (vars : TemplVars) :
    Option URL × Endpoints :=
  match e.cache.lookup (eType, deploymentID) with
  | some u => (some u, e)
  | none =>
    match endpointsSet parseURL eType { vars with deploymentID := deploymentID } with
    | none => (none, { e with renders := e.renders + 1 })
    | some u =>
      (some u, { cache := ((eType, deploymentID), u) :: e.cache,
                 renders := e.renders + 1 })

/-- C4: if a call to `endpoints.url` yields a URL, then calling it again
with the same endpoint type, deployment ID and template variables yields
the same URL, from the cache (the pair is cached with that URL), with the
state — in particular the count of template executions — unchanged: the
second call re-executes neither template substitution nor URL parsing. -/
theorem endpoints_url_idempotent_and_cached
    (parseURL : String → Option URL) (e : Endpoints) (eType : EndpointType)
    (deploymentID : String) (vars : TemplVars) (u : URL) (e1 : Endpoints)
    (h : Endpoints.url parseURL e eType deploymentID vars = (some u, e1)) :
    Endpoints.url parseURL e1 eType deploymentID vars = (some u, e1)
      ∧ e1.cache.lookup (eType, deploymentID) = some u := by
  have hcached : e1.cache.lookup (eType, deploymentID) = some u := by
    unfold Endpoints.url at h
    split at h
    · rename_i u0 hl
      simp only [Prod.mk.injEq, Option.some.injEq] at h
      obtain ⟨hu, he⟩ := h
      subst hu
      subst he
      exact hl
    · rename_i hl
      split at h
      · simp at h
      · rename_i u0 hs
        simp only [Prod.mk.injEq, Option.some.injEq] at h
        obtain ⟨hu, he⟩ := h
        subst hu
        rw [← he]
        simp [List.lookup]
  refine ⟨?_, hcached⟩
  unfold Endpoints.url
  rw [hcached]

/-- Witness for C4: resolving the embeddings endpoint for deployment `dep1`
twice from an empty cache; the theorem is applied to the result of the
first call. -/
theorem endpoints_url_idempotent_and_cached_witness :
    Endpoints.url some
        ⟨[((EndpointType.embeddingsTmpl, "dep1"),
           "https://res.openai.azure.com/openai/deployments/dep1/embeddings?api-version=2023-03-15-preview")], 1⟩
        EndpointType.embeddingsTmpl "dep1" ⟨"res", "", APIVersion⟩
      = (some "https://res.openai.azure.com/openai/deployments/dep1/embeddings?api-version=2023-03-15-preview",
         ⟨[((EndpointType.embeddingsTmpl, "dep1"),
            "https://res.openai.azure.com/openai/deployments/dep1/embeddings?api-version=2023-03-15-preview")], 1⟩) :=
  (endpoints_url_idempotent_and_cached some ⟨[], 0⟩ EndpointType.embeddingsTmpl
    "dep1" ⟨"res", "", APIVersion⟩
    "https://res.openai.azure.com/openai/deployments/dep1/embeddings?api-version=2023-03-15-preview"
    ⟨[((EndpointType.embeddingsTmpl, "dep1"),
       "https://res.openai.azure.com/openai/deployments/dep1/embeddings?api-version=2023-03-15-preview")], 1⟩
    (by decide)).1

/- ================================================================
   Dispatch URLs per operation
   (src/rest/rest.go lines 346-463 and the rest client embedded in
    src/rest/messages/embeddings/embeddings.go, second document)
   ================================================================ -/

/-- The three endpoint URLs a client holds
(src/rest/messages/embeddings/embeddings.go, second document, lines 83-85). -/
structure ClientURLs where
  completionsURL : URL
  embeddingsURL : URL
  chatURL : URL
deriving DecidableEq, Repr

/-- `Client.urls` of the rest client embedded in
src/rest/messages/embeddings/embeddings.go (second document, lines 132-153):
build the three endpoint URLs with `fmt.Sprintf` from the resource name,
deployment ID and API version.  `url.Parse` of these well-formed literals
round-trips, so the parsed URLs are modelled by their text. -/
def clientUrls (resourceName deploymentID apiVersion : String) : ClientURLs where
  completionsURL :=
    "https://" ++ resourceName ++ ".openai.azure.com/openai/deployments/"
      ++ deploymentID ++ "/completions?api-version=" ++ apiVersion
  embeddingsURL :=
    "https://" ++ resourceName ++ ".openai.azure.com/openai/deployments/"
      ++ deploymentID ++ "/embeddings?api-version=" ++ apiVersion
  chatURL :=
    "https://" ++ resourceName ++ ".openai.azure.com/openai/deployments/"
      ++ deploymentID ++ "/chat/completions?api-version=" ++ apiVersion

/-- The URL that `Client.Completions` of that client POSTs to
(`c.send(ctx, c.completionsURL, b)`, line 164). -/
def completionsDispatchURL (c : ClientURLs) : URL := c.completionsURL

/-- The URL that `Client.Embeddings` of that client POSTs to
(`c.send(ctx, c.completionsURL, b)`, line 216). -/
def embeddingsDispatchURL (c : ClientURLs) : URL := c.completionsURL

/-- The URL that `Client.Chat` of that client POSTs to
(`c.send(ctx, c.chatURL, b)`, line 240). -/
def chatDispatchURL (c : ClientURLs) : URL := c.chatURL

/-- The URL resolution performed by `Client.Embeddings` of the endpoint-cache
client (src/rest/rest.go line 411): resolve the embeddings endpoint type. -/
def embeddingsCallURL (parseURL : String → Option URL) (e : Endpoints)
    (deploymentID : String) (vars : TemplVars) : Option URL × Endpoints :=
  Endpoints.url parseURL e .embeddingsTmpl deploymentID vars

/-- The URL resolution performed by `Client.Chat` (src/rest/rest.go
line 439): resolve the chat endpoint type. -/
def chatCallURL (parseURL : String → Option URL) (e : Endpoints)
    (deploymentID : String) (vars : TemplVars) : Option URL × Endpoints :=
  Endpoints.url parseURL e .chatTmpl deploymentID vars

/-- C5 (divergence witness): in the rest client embedded in
src/rest/messages/embeddings/embeddings.go, `Client.Embeddings` POSTs to the
completions URL, not to the embeddings URL that `Client.urls` computed for
it — for resource `test` and deployment `dep`, the dispatch target ends in
`/completions` while the claimed target ends in `/embeddings`.  The
endpoint-cache client of src/rest/rest.go resolves the embeddings endpoint
correctly, as the last two conjuncts record. -/
theorem embeddings_dispatched_to_completions_url :
    embeddingsDispatchURL (clientUrls "test" "dep" APIVersion)
        = "https://test.openai.azure.com/openai/deployments/dep/completions?api-version=2023-03-15-preview"
      ∧ (clientUrls "test" "dep" APIVersion).embeddingsURL
        = "https://test.openai.azure.com/openai/deployments/dep/embeddings?api-version=2023-03-15-preview"
      ∧ embeddingsDispatchURL (clientUrls "test" "dep" APIVersion)
        ≠ (clientUrls "test" "dep" APIVersion).embeddingsURL
      ∧ (embeddingsCallURL some ⟨[], 0⟩ "dep" ⟨"test", "", APIVersion⟩).1
        = some "https://test.openai.azure.com/openai/deployments/dep/embeddings?api-version=2023-03-15-preview"
      ∧ (chatCallURL some ⟨[], 0⟩ "dep" ⟨"test", "", APIVersion⟩).1
        = some "https://test.openai.azure.com/openai/deployments/dep/chat/completions?api-version=2023-03-15-preview" := by
  refine ⟨by decide, by decide, by decide, by decide, by decide⟩

/- ================================================================
   Pooled request buffer: `buffer` / `bufferPool`
   (src/rest/rest.go, third document, lines 609-672)
   ================================================================ -/

/-- The `buffer` type (src/rest/rest.go lines 612-615): a read-only cursor
over a byte slice, with `b` the backing bytes and `ptr` the read position. -/
structure GoBuffer where
  b : List Char
  ptr : Nat
deriving DecidableEq, Repr

/-- `buffer.Read` (src/rest/rest.go lines 618-625) for a destination of
capacity `n`: at or past the end it returns no bytes and `io.EOF`;
otherwise it copies up to `n` of the remaining bytes and advances `ptr`
by the number copied. -/
def GoBuffer.readStep (buf : GoBuffer) (n : Nat) :
    (List Char × Option GoError) × GoBuffer :=
  if buf.b.length ≤ buf.ptr then (([], some GoError.eof), buf)
  else
    let taken := (buf.b.drop buf.ptr).take n
    ((taken, none), { buf with ptr := buf.ptr + taken.length })

/-- `buffer.Reset` (src/rest/rest.go lines 635-638): point the buffer at the
given bytes and rewind the cursor. -/
def GoBuffer.reset (_ : GoBuffer) (content : List Char) : GoBuffer :=
  ⟨content, 0⟩

/-- The number of bytes still readable from the buffer. -/
def GoBuffer.readableLen (buf : GoBuffer) : Nat := buf.b.length - buf.ptr

/-- The capacity of the `buffers` channel of `bufferPool`
(src/rest/rest.go line 647). -/
def bufferChanCap : Nat := 100

/-- `bufferPool` (src/rest/rest.go lines 640-643): a bounded channel of
buffers (FIFO) backed by a `sync.Pool` overflow (unordered; modelled as a
stack whose `New` allocates a fresh zero buffer). -/
structure BufferPool where
  buffers : List GoBuffer
  pool : List GoBuffer
deriving DecidableEq, Repr

/-- `bufferPool.Get` (src/rest/rest.go lines 656-663): take from the channel
if one is ready, else fall back to the `sync.Pool`. -/
def BufferPool.get : BufferPool → GoBuffer × BufferPool
  | ⟨buf :: rest, pool⟩ => (buf, ⟨rest, pool⟩)
  | ⟨[], buf :: rest⟩ => (buf, ⟨[], rest⟩)
  | ⟨[], []⟩ => (⟨[], 0⟩, ⟨[], []⟩)

/-- `bufferPool.Put` (src/rest/rest.go lines 665-672): hand the buffer back
to the channel if it has room, else to the `sync.Pool`.  Note that, unlike
the `bytes.Buffer` pool of the first document (lines 129-137), this `Put`
does not call `Reset`: the buffer is stored as-is. -/
def BufferPool.put (p : BufferPool) (buf : GoBuffer) : BufferPool :=
  if p.buffers.length < bufferChanCap then ⟨p.buffers ++ [buf], p.pool⟩
  else ⟨p.buffers, buf :: p.pool⟩

/-- One complete round trip of `Client.send` against the pool
(src/rest/rest.go lines 477-481): borrow a buffer, `Reset` it to the
request content, have the transport read the content back in full, and
return the buffer to the pool. -/
def bufferRoundTrip (p : BufferPool) (content : List Char) : BufferPool :=
  let gp := p.get
  let buf2 := ((gp.1.reset content).readStep content.length).2
  gp.2.put buf2

theorem bufferRoundTrip_from_empty (content : List Char) :
    bufferRoundTrip ⟨[], []⟩ content = ⟨[⟨content, content.length⟩], []⟩ := by
  have h3 : (((⟨[], 0⟩ : GoBuffer).reset content).readStep content.length).2
      = ⟨content, content.length⟩ := by
    by_cases hc : content.length ≤ 0
    · have hnil : content = [] := List.length_eq_zero.mp (Nat.le_zero.mp hc)
      subst hnil
      decide
    · simp [GoBuffer.reset, GoBuffer.readStep, hc, List.take_length]
  simp [bufferRoundTrip, h3, BufferPool.get, BufferPool.put, bufferChanCap]

/-- Counterexample to C8 as stated: after a full round trip with the one
byte `x`, the next `Get` returns a buffer that still holds that prior byte
in its backing slice — `Put` does not clear it — so the returned buffer is
not free of residual bytes from the prior use. -/
theorem buffer_pool_get_after_put_retains_prior_bytes :
    (((bufferRoundTrip ⟨[], []⟩ "x".data).get).1.b = "x".data
      ∧ ((bufferRoundTrip ⟨[], []⟩ "x".data).get).1.b ≠ [])
      ∧ ((bufferRoundTrip ⟨[], []⟩ "x".data).get).1.readableLen = 0 := by
  decide

/-- C8 (amended): after a complete round trip — `Get`, `Reset` with the
request content, reading the content back in full, `Put` — the next `Get`
returns a buffer with zero readable length, whose every `Read` immediately
reports `io.EOF`; but the buffer's backing slice still references the prior
content (it is only replaced by the next `Reset`, which rewinds the buffer
onto the new bytes). -/
theorem buffer_pool_round_trip_zero_readable (content : List Char) :
    (((bufferRoundTrip ⟨[], []⟩ content).get).1.readableLen = 0
      ∧ ∀ n, ((((bufferRoundTrip ⟨[], []⟩ content).get).1.readStep n).1
          = ([], some GoError.eof)))
    ∧ ((bufferRoundTrip ⟨[], []⟩ content).get).1.b = content
    ∧ ∀ fresh : List Char,
        ((bufferRoundTrip ⟨[], []⟩ content).get).1.reset fresh = ⟨fresh, 0⟩ := by
  have hget : ((bufferRoundTrip ⟨[], []⟩ content).get).1
      = ⟨content, content.length⟩ := by
    rw [bufferRoundTrip_from_empty]
    rfl
  refine ⟨⟨?_, ?_⟩, ?_, ?_⟩
  · rw [hget]; simp [GoBuffer.readableLen]
  · intro n
    rw [hget]
    simp [GoBuffer.readStep]
  · rw [hget]
  · intro fresh
    rw [hget]
    rfl

/- ================================================================
   Authorizer validation: `Authorizer.Validate` (src/auth/auth.go)
   ================================================================ -/

/-- The method constants of src/auth/auth.go (an untyped iota block):
`unknown` is zero, `useApiKey` one, `useAzIdentity` two. -/
def unknownMethod : Nat := 0

/-- See `unknownMethod`. -/
def useApiKey : Nat := 1

/-- See `unknownMethod`. -/
def useAzIdentity : Nat := 2

/-- `auth.AzIdentity` (src/auth/auth.go): `azcore.TokenCredential` is an
external interface, modelled by an opaque identifier with `none` for a nil
credential; `policy.TokenRequestOptions` is modelled by its scope list. -/
structure AzIdentity where
  credential : Option String
  policy : List String
deriving DecidableEq, Repr

/-- `auth.Authorizer` (src/auth/auth.go), with its unexported `method`
field. -/
structure Authorizer where
  apiKey : String
  azIdentity : AzIdentity
  method : Nat
deriving DecidableEq, Repr

/-- `reflect.ValueOf(a).IsZero()` for an `Authorizer`: all fields are their
zero values. -/
def Authorizer.isZero (a : Authorizer) : Bool :=
  decide (a.apiKey = "" ∧ a.azIdentity.credential = none
    ∧ a.azIdentity.policy = [] ∧ a.method = 0)

/-- `AzIdentity.validate` (src/auth/auth.go lines 78-83): an error exactly
when the credential is nil. -/
def AzIdentity.validateAz (az : AzIdentity) : Option String :=
  if az.credential = none then some "missing Credential" else none

/-- `Authorizer.Validate` (src/auth/auth.go lines 32-46): reject the
all-zero value; otherwise a non-empty API key selects the API-key method;
otherwise the `AzIdentity` must validate and the token-credential method is
selected. -/
def Authorizer.validate (a : Authorizer) : Except String Authorizer :=
  if a.isZero then .error "Authorizer must have ApiKey or AzIdentity set"
  else if a.apiKey ≠ "" then .ok { a with method := useApiKey }
  else
    match a.azIdentity.validateAz with
    | some e => .error e
    | none => .ok { a with method := useAzIdentity }

/-- C9: `Authorizer.Validate` returns an error exactly when the API key is
empty and the credential is nil; with a non-empty API key it succeeds
selecting the API-key method, and with an empty key but a non-nil
credential it succeeds selecting the token-credential method. -/
theorem authorizer_validate_characterization (a : Authorizer) :
    ((∃ e, a.validate = .error e)
        ↔ (a.apiKey = "" ∧ a.azIdentity.credential = none))
    ∧ (a.apiKey ≠ "" → a.validate = .ok { a with method := useApiKey })
    ∧ (a.apiKey = "" → ∀ cred, a.azIdentity.credential = some cred →
        a.validate = .ok { a with method := useAzIdentity }) := by
  by_cases hk : a.apiKey = ""
  · by_cases hc : a.azIdentity.credential = none
    · have herr : ∃ e, a.validate = .error e := by
        by_cases hz : a.isZero
        · exact ⟨"Authorizer must have ApiKey or AzIdentity set",
            by simp [Authorizer.validate, hz]⟩
        · exact ⟨"missing Credential",
            by simp [Authorizer.validate, hz, hk, AzIdentity.validateAz, hc]⟩
      refine ⟨⟨fun _ => ⟨hk, hc⟩, fun _ => herr⟩, fun hk2 => absurd hk hk2,
        fun _ cred hcred => ?_⟩
      rw [hc] at hcred
      exact Option.noConfusion hcred
    · obtain ⟨cred, hcred⟩ := Option.ne_none_iff_exists'.mp hc
      have hz : a.isZero = false := by
        simp [Authorizer.isZero, hcred]
      have hv : a.azIdentity.validateAz = none := by
        simp [AzIdentity.validateAz, hcred]
      have hok : a.validate = .ok { a with method := useAzIdentity } := by
        simp [Authorizer.validate, hz, hk, hv]
      refine ⟨⟨?_, ?_⟩, fun hk2 => absurd hk hk2, fun _ _ _ => hok⟩
      · rintro ⟨e, he⟩
        rw [hok] at he
        exact Except.noConfusion he
      · rintro ⟨-, h2⟩
        rw [hcred] at h2
        exact Option.noConfusion h2
  · have hz : a.isZero = false := by
      simp [Authorizer.isZero, hk]
    have hok : a.validate = .ok { a with method := useApiKey } := by
      simp [Authorizer.validate, hz, hk]
    refine ⟨⟨?_, ?_⟩, fun _ => hok, fun hk2 => absurd hk2 hk⟩
    · rintro ⟨e, he⟩
      rw [hok] at he
      exact Except.noConfusion he
    · rintro ⟨h1, -⟩
      exact absurd h1 hk

/-- Witness for C9: the authorizer with only an API key validates to the
API-key method. -/
theorem authorizer_validate_characterization_witness :
    Authorizer.validate ⟨"key", ⟨none, []⟩, 0⟩
      = .ok ⟨"key", ⟨none, []⟩, useApiKey⟩ :=
  (authorizer_validate_characterization ⟨"key", ⟨none, []⟩, 0⟩).2.1 (by decide)

/- ================================================================
   Embeddings client newline removal: `Client.Call` and
   `WithNewlineRemoval` (src/clients/embeddings/embeddings.go and
   src/unnamed/part_003)
   ================================================================ -/

/-- `strings.ReplaceAll(s, "\n", " ")` as called by `Client.Call`: with a
single-character pattern every occurrence of the newline byte is replaced
by a single space, which is a character-wise map. -/
def replaceNewlines (s : String) : String :=
  ⟨s.data.map fun c => if c = '\n' then ' ' else c⟩

/-- `embeddings.CallParams` (src/clients/embeddings/embeddings.go). -/
structure CallParams where
  user : String
  type : String
  model : String
deriving DecidableEq, Repr

/-- `callOptions` (src/unnamed/part_003): the per-call option record built
by folding the `CallOption` functions over the zero value. -/
structure CallOptions where
  callParams : CallParams
  setCallParams : Bool
  deploymentID : String
  restReq : Bool
  restResp : Bool
  removeNewlines : Bool
deriving DecidableEq, Repr

/-- The zero value `callOptions` that `Client.Call` starts from. -/
def emptyCallOptions : CallOptions :=
  ⟨⟨"", "", ""⟩, false, "", false, false, false⟩

/-- `WithNewlineRemoval` (src/clients/embeddings/embeddings.go lines
102-107): set the `RemoveNewlines` flag.  The Go option functions return a
nil error unconditionally, so they are modelled as pure updates. -/
def withNewlineRemoval (o : CallOptions) : CallOptions :=
  { o with removeNewlines := true }

/-- `WithCallParams` (src/clients/embeddings/embeddings.go lines 81-87). -/
def withCallParams (params : CallParams) (o : CallOptions) : CallOptions :=
  { o with callParams := params, setCallParams := true }

/-- `WithRest` (src/clients/embeddings/embeddings.go lines 91-97). -/
def withRest (req resp : Bool) (o : CallOptions) : CallOptions :=
  { o with restReq := req, restResp := resp }

/-- `WithDeploymentID` (src/unnamed/part_003). -/
def withDeploymentID (deploymentID : String) (o : CallOptions) : CallOptions :=
  { o with deploymentID := deploymentID }

/-- The option-folding loop at the top of `Client.Call`. -/
def applyCallOptions (options : List (CallOptions → CallOptions)) : CallOptions :=
  options.foldl (fun o f => f o) emptyCallOptions

/-- The caller's `text` slice as it stands after `Client.Call` returns
(src/clients/embeddings/embeddings.go lines 125-130): when the
`RemoveNewlines` flag is set the loop assigns
`text[i] = strings.ReplaceAll(text[i], "\n", " ")` in place, so the
caller-visible slice contents are the mapped strings; otherwise the loop
does not run and the slice is untouched. -/
def callTextAfter (options : List (CallOptions → CallOptions))
    (text : List String) : List String :=
  if (applyCallOptions options).removeNewlines then text.map replaceNewlines
  else text

/-- C10: with `WithNewlineRemoval` among the options, the caller's text
slice after `Call` returns holds, element-wise, the original strings with
every newline character replaced by a single space — in particular no
element contains a newline, while all other characters are unchanged — and
with the flag not set (whatever other options are passed) the slice
elements are left exactly as they were. -/
theorem newline_removal_mutates_text_in_place (text : List String) :
    (callTextAfter [withNewlineRemoval] text = text.map replaceNewlines
      ∧ (∀ s ∈ callTextAfter [withNewlineRemoval] text, '\n' ∉ s.data)
      ∧ ∀ s, (replaceNewlines s).data
          = s.data.map fun c => if c = '\n' then ' ' else c)
    ∧ ∀ options, (applyCallOptions options).removeNewlines = false →
        callTextAfter options text = text := by
  refine ⟨⟨?_, ?_, fun s => rfl⟩, ?_⟩
  · simp [callTextAfter, applyCallOptions, emptyCallOptions, withNewlineRemoval]
  · intro s hs
    have : (applyCallOptions [withNewlineRemoval]).removeNewlines = true := rfl
    rw [callTextAfter, if_pos this] at hs
    obtain ⟨t, _, rfl⟩ := List.mem_map.mp hs
    intro hmem
    obtain ⟨c, _, hc⟩ := List.mem_map.mp hmem
    by_cases hn : c = '\n'
    · rw [hn] at hc; simp at hc
    · rw [if_neg hn] at hc; exact hn hc
  · intro options hflag
    rw [callTextAfter, if_neg (by rw [hflag]; exact Bool.false_ne_true)]

/-- Witness for C10: passing only `WithRest` leaves the text unchanged. -/
theorem newline_removal_mutates_text_in_place_witness :
    callTextAfter [withRest true true] ["a\nb"] = ["a\nb"] :=
  (newline_removal_mutates_text_in_place ["a\nb"]).2 [withRest true true] rfl
